import Mathlib

/-!
Verification of `agent.py` ("The Historical Court"), a multi-agent
orchestration script.  The file shallowly embeds the deterministic parts of
the program: the session-state tool `append_to_state`, the file tool
`write_verdict_file`, the backend selector `get_gemini_model`, the iteration
cap of the `historical_court_loop`, and the sentinel check of the
interactive driver loop.
-/

/-- Python values that can appear in the ADK session state mapping in this
module: strings, integers (a representative non-string, non-sequence
scalar), and lists. -/
inductive PyVal where
  | str : String → PyVal
  | int : Int → PyVal
  | list : List PyVal → PyVal

/-- Python exceptions raised by the embedded code paths.  `typeError` models
the TypeError raised by `existing_state + [response]` when `existing_state`
is neither a list nor was coerced from a string. -/
inductive PyError where
  | typeError : PyError
deriving DecidableEq

/-- The session state: a Python dict from string keys to values, embedded as
an association list with at most one binding per key. -/
abbrev PyState := List (String × PyVal)

/-- Python `dict.get(k)` returning `none` when the key is absent. -/
def assocFind {β : Type} : List (String × β) → String → Option β
  | [], _ => none
  | (k2, v) :: rest, k => if k2 = k then some v else assocFind rest k

/-- Python `dict.get(k, d)`: the stored value, or the default `d` when the
key is absent. -/
def assocGet {β : Type} (d : β) : List (String × β) → String → β
  | [], _ => d
  | (k2, v) :: rest, k => if k2 = k then v else assocGet d rest k

/-- Python `dict[k] = v`: replace the binding in place, or add it. -/
def assocSet {β : Type} : List (String × β) → String → β → List (String × β)
  | [], k, v => [(k, v)]
  | (k2, v2) :: rest, k, v =>
    if k2 = k then (k, v) :: rest else (k2, v2) :: assocSet rest k v

/-- `tool_context.state.get(field, [])` from `append_to_state`. -/
def stateGet (s : PyState) (field : String) (d : PyVal) : PyVal :=
  assocGet d s field

/-- `tool_context.state[field] = new_data` from `append_to_state`. -/
def stateSet (s : PyState) (field : String) (v : PyVal) : PyState :=
  assocSet s field v

/-- The `{"status": ..., "message": ...}` acknowledgment dict returned by
`append_to_state`. -/
structure ToolAck where
  status : String
  message : String
deriving DecidableEq

/-- The f-string `f"Data appended to {field}"` from `append_to_state`. -/
def ackMessage (field : String) : String :=
  "Data appended to " ++ field

/-- `if isinstance(existing_state, str): existing_state = [existing_state]`
from `append_to_state`: a bare string is coerced to a one-element list; any
other value is left unchanged. -/
def coerceScalar : PyVal → PyVal
  | PyVal.str t => PyVal.list [PyVal.str t]
  | v => v

/-- Embedding of `append_to_state(tool_context, field, response)` from
`agent.py`: read the current value with default `[]`, coerce a bare string
into a one-element list, then evaluate `existing_state + [response]` and
store it.  Python list concatenation succeeds exactly when the left operand
is a list; otherwise it raises a TypeError, modelled by `Except.error`.
The `logging.info` call has no effect on state or result and is omitted. -/
def append_to_state (s : PyState) (field response : String) :
    Except PyError (ToolAck × PyState) :=
  match coerceScalar (stateGet s field (PyVal.list [])) with
  | PyVal.list l =>
      Except.ok (ToolAck.mk "success" (ackMessage field),
        stateSet s field (PyVal.list (l ++ [PyVal.str response])))
  | _ => Except.error PyError.typeError

theorem assocGet_of_find_none {β : Type} (d : β) (s : List (String × β))
    (k : String) (h : assocFind s k = none) : assocGet d s k = d := by
  induction s with
  | nil => rfl
  | cons p rest ih =>
    obtain ⟨k2, v⟩ := p
    by_cases hk : k2 = k
    · simp [assocFind, hk] at h
    · simp only [assocFind, hk, if_false] at h
      simp only [assocGet, hk, if_false]
      exact ih h

theorem assocGet_of_find_some {β : Type} (d : β) (s : List (String × β))
    (k : String) (v : β) (h : assocFind s k = some v) : assocGet d s k = v := by
  induction s with
  | nil => simp [assocFind] at h
  | cons p rest ih =>
    obtain ⟨k2, w⟩ := p
    by_cases hk : k2 = k
    · simp only [assocFind, hk, if_true] at h
      simp only [assocGet, hk, if_true]
      exact Option.some.inj h
    · simp only [assocFind, hk, if_false] at h
      simp only [assocGet, hk, if_false]
      exact ih h

theorem assocGet_assocSet_self {β : Type} (d : β) (s : List (String × β))
    (k : String) (v : β) : assocGet d (assocSet s k v) k = v := by
  induction s with
  | nil => simp [assocSet, assocGet]
  | cons p rest ih =>
    obtain ⟨k2, w⟩ := p
    by_cases hk : k2 = k
    · simp [assocSet, assocGet, hk]
    · simp only [assocSet, hk, if_false]
      simp only [assocGet, hk, if_false]
      exact ih

/-- The in-memory filesystem observed by `write_verdict_file`: a mapping
from file path to text content, plus the set of directories that exist. -/
structure FS where
  files : List (String × String)
  dirs : List String

/-- Python `str.startswith(p)`, computed on the underlying character
lists. -/
def strStartsWith (s p : String) : Bool :=
  List.isPrefixOf p.data s.data

/-- Python `str.endswith(p)`, computed on the underlying character
lists. -/
def strEndsWith (s p : String) : Bool :=
  List.isPrefixOf p.data.reverse s.data.reverse

/-- POSIX `os.path.join(a, b)`: an absolute second component replaces the
first; otherwise the components are joined with a single separator. -/
def posixJoin (a b : String) : String :=
  if strStartsWith b "/" then b
  else if a = "" then b
  else if strEndsWith a "/" then a ++ b
  else a ++ "/" ++ b

/-- True when the string consists only of path separators. -/
def allSlashes (s : String) : Bool :=
  (s.splitOn "/").all (fun c => c = "")

/-- Remove trailing empty components (trailing separators). -/
def dropTrailingEmpty (l : List String) : List String :=
  (l.reverse.dropWhile (fun c => c = "")).reverse

/-- POSIX `os.path.dirname(p)`: everything before the final separator, with
trailing separators stripped unless the result is all separators. -/
def dirname (p : String) : String :=
  let parts := p.splitOn "/"
  if parts.length ≤ 1 then ""
  else
    let head := String.intercalate "/" parts.dropLast ++ "/"
    if allSlashes head then head
    else String.intercalate "/" (dropTrailingEmpty (head.splitOn "/"))

/-- `os.makedirs(d, exist_ok=True)`: record the requested directory as
existing (idempotent on re-creation). -/
def makedirs (fs : FS) (d : String) : FS :=
  FS.mk fs.files (d :: fs.dirs)

/-- `open(target_path, "w")` followed by `f.write(content)`: create or
truncate-and-overwrite the file at the path. -/
def fsWrite (fs : FS) (path content : String) : FS :=
  FS.mk (assocSet fs.files path content) fs.dirs

/-- Reading back the text content of a file, `none` when it is absent. -/
def readFile (fs : FS) (path : String) : Option String :=
  assocFind fs.files path

/-- The `{"status": ..., "path": ...}` dict returned by
`write_verdict_file`. -/
structure WriteResult where
  status : String
  path : String
deriving DecidableEq

/-- Embedding of `write_verdict_file(tool_context, filename, content)` from
`agent.py`: join the fixed directory `"court_records"` with `filename`,
create the parent directory of the target, write `content` with overwrite
semantics, and return a success status with the resolved path. -/
def write_verdict_file (fs : FS) (filename content : String) :
    WriteResult × FS :=
  let directory := "court_records"
  let target_path := posixJoin directory filename
  let fs1 := makedirs fs (dirname target_path)
  let fs2 := fsWrite fs1 target_path content
  (WriteResult.mk "success" target_path, fs2)

/-- The five environment variables read at startup by `agent.py`
(`GOOGLE_GENAI_USE_VERTEXAI`, `GOOGLE_CLOUD_PROJECT`,
`GOOGLE_CLOUD_LOCATION`, `MODEL`, `GOOGLE_API_KEY`); `none` models an unset
variable. -/
structure EnvConfig where
  use_vertex : Option String
  project_id : Option String
  location : Option String
  model : Option String
  api_key : Option String

/-- Python truthiness of an optional environment string: unset and the
empty string are falsy. -/
def truthy : Option String → Bool
  | none => false
  | some s => if s = "" then false else true

/-- Python `str.upper()` (ASCII case mapping, which covers the
configuration values compared here). -/
def pyUpper (s : String) : String :=
  String.mk (s.data.map Char.toUpper)

/-- `model_name = os.getenv("MODEL", "gemini-1.5-flash")`. -/
def modelName (c : EnvConfig) : String :=
  c.model.getD "gemini-1.5-flash"

/-- The model handle constructed by `get_gemini_model`: either a Vertex AI
backed Gemini client or a direct API-key backed one. -/
inductive GeminiModel where
  | vertex (model project location : String) : GeminiModel
  | apiKey (model key : String) : GeminiModel
deriving DecidableEq

/-- The guard `use_vertex and use_vertex.upper() == "TRUE" and project_id
and location` from `get_gemini_model`. -/
def vertexConfigured (c : EnvConfig) : Bool :=
  truthy c.use_vertex && (pyUpper (c.use_vertex.getD "") == "TRUE")
    && truthy c.project_id && truthy c.location

/-- Embedding of `get_gemini_model()` from `agent.py`: full Vertex
configuration selects the Vertex backend; otherwise a truthy API key
selects the direct backend; otherwise a ValueError is raised, modelled by
`Except.error`. -/
def get_gemini_model (c : EnvConfig) : Except String GeminiModel :=
  if vertexConfigured c then
    Except.ok (GeminiModel.vertex (modelName c) (c.project_id.getD "")
      (c.location.getD ""))
  else if truthy c.api_key then
    Except.ok (GeminiModel.apiKey (modelName c) (c.api_key.getD ""))
  else
    Except.error "Missing Configuration! Check .env"

/-- Whether `get_gemini_model` raises the configuration ValueError. -/
def raisesConfigError (c : EnvConfig) : Bool :=
  match get_gemini_model c with
  | Except.error _ => true
  | Except.ok _ => false

/-- Modelled from the spec: the execution semantics of the agent
framework's loop composite (`LoopAgent`), which is framework code not part
of this repository.  Per the spec's loop-controller description, the loop
repeats its body — one `(investigation_team, judge)` pair per iteration —
until either the judge signals exit at the end of an iteration or the
iteration cap is exhausted.  `d k` is the judge's exit decision on
iteration `k`; the result counts executed iterations. -/
def loopIterations (d : Nat → Bool) : Nat → Nat → Nat
  | 0, _ => 0
  | Nat.succ m, k => 1 + (if d k then 0 else loopIterations d m (k + 1))

/-- `max_iterations=3` from the `historical_court_loop` LoopAgent in
`agent.py`. -/
def historical_court_loop_max_iterations : Nat := 3

/-- Number of `(investigation_team, judge)` iterations the
`historical_court_loop` executes for a given sequence of judge exit
decisions. -/
def historical_court_loop_runs (d : Nat → Bool) : Nat :=
  loopIterations d historical_court_loop_max_iterations 0

/-- Python `str.lower()` (ASCII case mapping; the Thai sentinel has no case
and is unchanged, as in Python). -/
def pyLower (s : String) : String :=
  String.mk (s.data.map Char.toLower)

/-- The sentinel list `["exit", "quit", "ออก"]` from the `__main__` driver
loop. -/
def exitWords : List String := ["exit", "quit", "ออก"]

/-- The check `user_input.lower() in ["exit", "quit", "ออก"]` from the
`__main__` driver loop. -/
def isSentinel (s : String) : Bool :=
  exitWords.contains (pyLower s)

/-- Embedding of the `while True` driver loop of `__main__`: for a sequence
of user inputs, the list of inputs that are forwarded to
`root_agent.query`.  The sentinel check runs before the query, so a
sentinel input breaks out of the loop without being queried and nothing
after it is queried. -/
def repl_queried : List String → List String
  | [] => []
  | i :: rest => if isSentinel i then [] else i :: repl_queried rest

theorem assocFind_assocSet_self {β : Type} (s : List (String × β))
    (k : String) (v : β) : assocFind (assocSet s k v) k = some v := by
  induction s with
  | nil => simp [assocSet, assocFind]
  | cons p rest ih =>
    obtain ⟨k2, w⟩ := p
    by_cases hk : k2 = k
    · simp [assocSet, assocFind, hk]
    · simp only [assocSet, hk, if_false]
      simp only [assocFind, hk, if_false]
      exact ih

theorem loopIterations_le (d : Nat → Bool) (m k : Nat) :
    loopIterations d m k ≤ m := by
  induction m generalizing k with
  | zero => simp [loopIterations]
  | succ n ih =>
    simp only [loopIterations]
    cases hd : d k
    · simpa [hd, Nat.add_comm] using Nat.succ_le_succ (ih (k + 1))
    · simp [hd]

/-- C1: for every sequence of judge exit decisions, the
`historical_court_loop` executes at most 3 iterations of the
`(investigation_team, judge)` pair; its configured cap `max_iterations` is
3, so termination is guaranteed by the cap alone, regardless of whether the
judge ever signals exit. -/
theorem historical_court_loop_at_most_three (d : Nat → Bool) :
    historical_court_loop_runs d ≤ 3 ∧
    historical_court_loop_max_iterations = 3 :=
  ⟨loopIterations_le d 3 0, rfl⟩

/-- C2: on a state where `field` is absent, `append_to_state` binds the
field to the one-element list `[response]` and acknowledges success; a
second call with another response yields the two-element list `[r1, r2]`,
preserving call order. -/
theorem append_to_state_fresh_two_calls (s : PyState) (field r1 r2 : String)
    (h : assocFind s field = none) :
    append_to_state s field r1 =
      Except.ok (ToolAck.mk "success" (ackMessage field),
        stateSet s field (PyVal.list [PyVal.str r1])) ∧
    stateGet (stateSet s field (PyVal.list [PyVal.str r1])) field
      (PyVal.list []) = PyVal.list [PyVal.str r1] ∧
    append_to_state (stateSet s field (PyVal.list [PyVal.str r1])) field r2 =
      Except.ok (ToolAck.mk "success" (ackMessage field),
        stateSet (stateSet s field (PyVal.list [PyVal.str r1])) field
          (PyVal.list [PyVal.str r1, PyVal.str r2])) ∧
    stateGet (stateSet (stateSet s field (PyVal.list [PyVal.str r1])) field
      (PyVal.list [PyVal.str r1, PyVal.str r2])) field (PyVal.list []) =
      PyVal.list [PyVal.str r1, PyVal.str r2] := by
  have hget : stateGet s field (PyVal.list []) = PyVal.list [] :=
    assocGet_of_find_none (PyVal.list []) s field h
  have hget1 : stateGet (stateSet s field (PyVal.list [PyVal.str r1])) field
      (PyVal.list []) = PyVal.list [PyVal.str r1] :=
    assocGet_assocSet_self (PyVal.list []) s field (PyVal.list [PyVal.str r1])
  refine ⟨?_, hget1, ?_, assocGet_assocSet_self (PyVal.list []) _ field _⟩
  · simp [append_to_state, hget, coerceScalar]
  · simp [append_to_state, hget1, coerceScalar]

/-- C2 witness: concrete run on the empty state with field `pos_data` and
responses `"a"` then `"b"`. -/
theorem append_to_state_fresh_two_calls_witness :
    assocFind ([] : PyState) "pos_data" = none ∧
    append_to_state ([] : PyState) "pos_data" "a" =
      Except.ok (ToolAck.mk "success" "Data appended to pos_data",
        [("pos_data", PyVal.list [PyVal.str "a"])]) ∧
    append_to_state [("pos_data", PyVal.list [PyVal.str "a"])] "pos_data" "b" =
      Except.ok (ToolAck.mk "success" "Data appended to pos_data",
        [("pos_data", PyVal.list [PyVal.str "a", PyVal.str "b"])]) :=
  ⟨rfl, (append_to_state_fresh_two_calls [] "pos_data" "a" "b" rfl).1,
    (append_to_state_fresh_two_calls [] "pos_data" "a" "b" rfl).2.2.1⟩

/-- C3 counterexample: on a field whose existing value is the non-string
scalar `5`, `append_to_state` raises a TypeError (Python evaluates
`5 + [response]`) instead of coercing the scalar and producing
`[5, response]`, so the claim fails for non-string scalars. -/
theorem append_to_state_int_scalar_cex :
    append_to_state [("neg_data", PyVal.int 5)] "neg_data" "r" =
      Except.error PyError.typeError ∧
    append_to_state [("neg_data", PyVal.int 5)] "neg_data" "r" ≠
      Except.ok (ToolAck.mk "success" (ackMessage "neg_data"),
        [("neg_data", PyVal.list [PyVal.int 5, PyVal.str "r"])]) :=
  ⟨rfl, fun hcontra => nomatch hcontra⟩

/-- C3 amended: only a bare *string* scalar `v` is coerced into the
one-element list `[v]` before appending, so the result is `[v, response]`;
a non-string scalar is not coerced and the call raises a TypeError. -/
theorem append_to_state_string_scalar_coerced (s : PyState)
    (field r v : String) (h : assocFind s field = some (PyVal.str v)) :
    append_to_state s field r =
      Except.ok (ToolAck.mk "success" (ackMessage field),
        stateSet s field (PyVal.list [PyVal.str v, PyVal.str r])) := by
  have hget : stateGet s field (PyVal.list []) = PyVal.str v :=
    assocGet_of_find_some (PyVal.list []) s field (PyVal.str v) h
  simp [append_to_state, hget, coerceScalar]

/-- C3 amended witness: concrete run on a state holding the bare string
`"Napoleon"` under `TOPIC`. -/
theorem append_to_state_string_scalar_coerced_witness :
    assocFind [("TOPIC", PyVal.str "Napoleon")] "TOPIC" =
      some (PyVal.str "Napoleon") ∧
    append_to_state [("TOPIC", PyVal.str "Napoleon")] "TOPIC" "x" =
      Except.ok (ToolAck.mk "success" "Data appended to TOPIC",
        [("TOPIC", PyVal.list [PyVal.str "Napoleon", PyVal.str "x"])]) :=
  ⟨rfl, append_to_state_string_scalar_coerced
    [("TOPIC", PyVal.str "Napoleon")] "TOPIC" "x" "Napoleon" rfl⟩

/-- Whether a state value is a string or a list, the two shapes for which
`existing_state + [response]` is well defined after the string coercion. -/
def isStrOrList : PyVal → Bool
  | PyVal.str _ => true
  | PyVal.list _ => true
  | _ => false

/-- Whether `append_to_state` completes without an exception and returns
the `{"status": "success", "message": f"Data appended to {field}"}`
acknowledgment. -/
def appendOkAck (s : PyState) (field response : String) : Bool :=
  match append_to_state s field response with
  | Except.ok (a, _) => a == ToolAck.mk "success" (ackMessage field)
  | Except.error _ => false

/-- C4 counterexample: with the pre-existing non-string, non-list value `7`
under the field, `append_to_state` raises a TypeError rather than
succeeding with an acknowledgment, so it does not succeed for every
pre-existing state value. -/
theorem append_to_state_raises_cex :
    append_to_state [("pos_data", PyVal.int 7)] "pos_data" "more" =
      Except.error PyError.typeError ∧
    appendOkAck [("pos_data", PyVal.int 7)] "pos_data" "more" = false :=
  ⟨rfl, rfl⟩

/-- C4 amended: `append_to_state` performs no validation of the field name,
and it succeeds with the status/message acknowledgment whenever the field
is absent or its pre-existing value is a string or a list; for any other
pre-existing value (a non-string scalar) the list concatenation raises a
TypeError. -/
theorem append_to_state_succeeds_on_str_or_list (s : PyState)
    (field r : String)
    (h : isStrOrList (stateGet s field (PyVal.list [])) = true) :
    appendOkAck s field r = true := by
  cases hv : stateGet s field (PyVal.list []) with
  | str t => simp [appendOkAck, append_to_state, hv, coerceScalar]
  | int n => rw [hv] at h; simp [isStrOrList] at h
  | list l => simp [appendOkAck, append_to_state, hv, coerceScalar]

/-- C4 amended witness: concrete success on a field holding a list, and on
an absent field (whose default is the empty list). -/
theorem append_to_state_succeeds_on_str_or_list_witness :
    isStrOrList (stateGet [("pos_data", PyVal.list [PyVal.str "p"])]
      "pos_data" (PyVal.list [])) = true ∧
    appendOkAck [("pos_data", PyVal.list [PyVal.str "p"])] "pos_data" "q" =
      true ∧
    isStrOrList (stateGet [] "neg_data" (PyVal.list [])) = true ∧
    appendOkAck [] "neg_data" "q" = true :=
  ⟨rfl,
    append_to_state_succeeds_on_str_or_list
      [("pos_data", PyVal.list [PyVal.str "p"])] "pos_data" "q" rfl,
    rfl,
    append_to_state_succeeds_on_str_or_list [] "neg_data" "q" rfl⟩

/-- Two consecutive judge feedback writes, exactly as the judge performs
them: `append_to_state(..., "JUDGE_FEEDBACK", ...)` on iteration 1 and
again on iteration 2, starting from a state with no feedback. -/
def feedbackTwice : Except PyError PyState :=
  match append_to_state [] "JUDGE_FEEDBACK" "f1" with
  | Except.error e => Except.error e
  | Except.ok r1 =>
    match append_to_state r1.snd "JUDGE_FEEDBACK" "f2" with
    | Except.error e => Except.error e
    | Except.ok r2 => Except.ok r2.snd

/-- C5 counterexample: the judge writes `JUDGE_FEEDBACK` through
`append_to_state`, so after feedback on two iterations the key holds the
accumulated list `["f1", "f2"]`, which is not the string `"f2"`: the value
is appended to, not overwritten, and it is not kept as a string. -/
theorem judge_feedback_not_overwritten_cex :
    feedbackTwice =
      Except.ok [("JUDGE_FEEDBACK",
        PyVal.list [PyVal.str "f1", PyVal.str "f2"])] ∧
    PyVal.list [PyVal.str "f1", PyVal.str "f2"] ≠ PyVal.str "f2" :=
  ⟨rfl, fun hcontra => nomatch hcontra⟩

/-- C5 amended: `JUDGE_FEEDBACK` holds a list of feedback strings that
accumulates: each loop iteration in which the judge writes feedback appends
the new feedback string to the existing list (a prior bare string would
first be coerced into a one-element list), rather than replacing it. -/
theorem judge_feedback_accumulates (s : PyState) (l : List PyVal)
    (f : String)
    (h : stateGet s "JUDGE_FEEDBACK" (PyVal.list []) = PyVal.list l) :
    append_to_state s "JUDGE_FEEDBACK" f =
      Except.ok (ToolAck.mk "success" (ackMessage "JUDGE_FEEDBACK"),
        stateSet s "JUDGE_FEEDBACK" (PyVal.list (l ++ [PyVal.str f]))) := by
  simp [append_to_state, h, coerceScalar]

/-- C5 amended witness: a second feedback write onto the singleton feedback
list appends to it. -/
theorem judge_feedback_accumulates_witness :
    stateGet [("JUDGE_FEEDBACK", PyVal.list [PyVal.str "f1"])]
      "JUDGE_FEEDBACK" (PyVal.list []) = PyVal.list [PyVal.str "f1"] ∧
    append_to_state [("JUDGE_FEEDBACK", PyVal.list [PyVal.str "f1"])]
      "JUDGE_FEEDBACK" "f2" =
      Except.ok (ToolAck.mk "success" "Data appended to JUDGE_FEEDBACK",
        [("JUDGE_FEEDBACK", PyVal.list [PyVal.str "f1", PyVal.str "f2"])]) :=
  ⟨rfl, judge_feedback_accumulates
    [("JUDGE_FEEDBACK", PyVal.list [PyVal.str "f1"])] [PyVal.str "f1"]
    "f2" rfl⟩

/-- C6 counterexample: with the absolute filename
`"/tmp/escape_verdict.txt"`, `os.path.join` discards the records directory,
so the resolved path is the absolute filename itself — not a path under
`court_records`.  The claim's universal quantification over every filename
fails. -/
theorem write_verdict_file_absolute_cex :
    (write_verdict_file (FS.mk [] []) "/tmp/escape_verdict.txt" "x").fst =
      WriteResult.mk "success" "/tmp/escape_verdict.txt" ∧
    ("/tmp/escape_verdict.txt" : String) ≠
      "court_records" ++ "/" ++ "/tmp/escape_verdict.txt" ∧
    strStartsWith "/tmp/escape_verdict.txt" "court_records" = false :=
  ⟨rfl, by decide, rfl⟩

/-- C6 amended: for every filename that does not begin with a path
separator, `write_verdict_file` builds its target path under the fixed
records directory `court_records`, records the creation of the target's
parent directory, writes the content with overwrite semantics (a second
call with the same filename replaces the prior content), and returns a
success status with the resolved path; an absolute filename instead
replaces the records directory entirely (the `os.path.join` semantics). -/
theorem write_verdict_file_relative (fs : FS) (filename content c2 : String)
    (h : strStartsWith filename "/" = false) :
    (write_verdict_file fs filename content).fst =
      WriteResult.mk "success" ("court_records" ++ "/" ++ filename) ∧
    dirname ("court_records" ++ "/" ++ filename) ∈
      ((write_verdict_file fs filename content).snd).dirs ∧
    readFile (write_verdict_file fs filename content).snd
      ("court_records" ++ "/" ++ filename) = some content ∧
    readFile (write_verdict_file
        (write_verdict_file fs filename content).snd filename c2).snd
      ("court_records" ++ "/" ++ filename) = some c2 := by
  have h1 : ¬ (strStartsWith filename "/" = true) := by simp [h]
  have h2 : ¬ (("court_records" : String) = "") := by decide
  have h3 : ¬ (strEndsWith "court_records" "/" = true) := by decide
  have hjoin : posixJoin "court_records" filename =
      "court_records" ++ "/" ++ filename := by
    unfold posixJoin
    rw [if_neg h1, if_neg h2, if_neg h3]
  simp only [write_verdict_file, hjoin, makedirs, fsWrite, readFile]
  exact ⟨trivial, List.mem_cons_self _ _,
    assocFind_assocSet_self _ _ _,
    assocFind_assocSet_self _ _ _⟩

/-- C6 amended witness: concrete double write of the same relative
filename, with the second content replacing the first. -/
theorem write_verdict_file_relative_witness :
    strStartsWith "Sukhothai_verdict.txt" "/" = false ∧
    (write_verdict_file (FS.mk [] []) "Sukhothai_verdict.txt" "a").fst =
      WriteResult.mk "success"
        ("court_records" ++ "/" ++ "Sukhothai_verdict.txt") ∧
    readFile (write_verdict_file (FS.mk [] [])
        "Sukhothai_verdict.txt" "a").snd
      ("court_records" ++ "/" ++ "Sukhothai_verdict.txt") = some "a" ∧
    readFile (write_verdict_file (write_verdict_file (FS.mk [] [])
        "Sukhothai_verdict.txt" "a").snd "Sukhothai_verdict.txt" "b").snd
      ("court_records" ++ "/" ++ "Sukhothai_verdict.txt") = some "b" :=
  ⟨rfl,
    (write_verdict_file_relative (FS.mk [] [])
      "Sukhothai_verdict.txt" "a" "b" rfl).1,
    (write_verdict_file_relative (FS.mk [] [])
      "Sukhothai_verdict.txt" "a" "b" rfl).2.2.1,
    (write_verdict_file_relative (FS.mk [] [])
      "Sukhothai_verdict.txt" "a" "b" rfl).2.2.2⟩

/-- C7: writing `"Napoleon_verdict.txt"` with any nonempty content yields a
readable file at `court_records/Napoleon_verdict.txt` whose content read
back equals the input exactly. -/
theorem napoleon_verdict_round_trip (fs : FS) (content : String)
    (h : content ≠ "") :
    readFile (write_verdict_file fs "Napoleon_verdict.txt" content).snd
      "court_records/Napoleon_verdict.txt" = some content := by
  have hjoin : posixJoin "court_records" "Napoleon_verdict.txt" =
      "court_records/Napoleon_verdict.txt" := rfl
  simp only [write_verdict_file, readFile, fsWrite, makedirs, hjoin]
  exact assocFind_assocSet_self _ _ _

/-- C7 witness: concrete round trip with content `"X"`. -/
theorem napoleon_verdict_round_trip_witness :
    ("X" : String) ≠ "" ∧
    readFile (write_verdict_file (FS.mk [] [])
        "Napoleon_verdict.txt" "X").snd
      "court_records/Napoleon_verdict.txt" = some "X" :=
  ⟨by decide, napoleon_verdict_round_trip (FS.mk [] []) "X" (by decide)⟩

/-- C8: `get_gemini_model` raises the configuration error exactly when
neither backend is configured: neither the full Vertex combination (flag
truthy and uppercased to `"TRUE"`, plus truthy project id and location)
nor a truthy API key; whenever one of the combinations is present, no
error is raised and a model handle is returned. -/
theorem get_gemini_model_error_iff (c : EnvConfig) :
    raisesConfigError c = (!vertexConfigured c && !truthy c.api_key) := by
  unfold raisesConfigError get_gemini_model
  cases h1 : vertexConfigured c
  · cases h2 : truthy c.api_key
    · simp [h1, h2]
    · simp [h1, h2]
  · simp [h1]

/-- C9: a sentinel input (`"exit"`, `"quit"`, or `"ออก"`, case-insensitive
via `str.lower()`) breaks the driver loop before the agent query, so no
input from the sentinel onward is forwarded to `root_agent.query`. -/
theorem sentinel_stops_queries (i : String) (rest : List String)
    (h : isSentinel i = true) :
    repl_queried (i :: rest) = [] := by
  simp [repl_queried, h]

/-- C9 witness: each of the three sentinel words stops the loop; with the
sentinel first, no input at all is queried. -/
theorem sentinel_stops_queries_witness :
    isSentinel "exit" = true ∧ isSentinel "quit" = true ∧
    isSentinel "ออก" = true ∧
    repl_queried ["ออก", "Napoleon"] = [] ∧
    repl_queried ["exit", "Napoleon"] = [] :=
  ⟨rfl, rfl, rfl, sentinel_stops_queries "ออก" ["Napoleon"] rfl,
    sentinel_stops_queries "exit" ["Napoleon"] rfl⟩

/-- C10: if the Vertex flag is `"TRUE"` but the project id or location is
not truthy, while an API key is set and nonempty, `get_gemini_model`
silently falls back to the direct API-key backend instead of raising; by
`get_gemini_model_error_iff` the configuration error is reserved for the
case where the Vertex combination is incomplete and no API key is set. -/
theorem vertex_incomplete_falls_back (c : EnvConfig) (k : String)
    (hv : c.use_vertex = some "TRUE")
    (hmiss : truthy c.project_id = false ∨ truthy c.location = false)
    (hk : c.api_key = some k) (hk2 : k ≠ "") :
    get_gemini_model c = Except.ok (GeminiModel.apiKey (modelName c) k) := by
  have hvc : vertexConfigured c = false := by
    unfold vertexConfigured
    cases hmiss with
    | inl hp => simp [hp]
    | inr hl => simp [hl]
  have htr : truthy c.api_key = true := by
    rw [hk]
    simp [truthy, hk2]
  unfold get_gemini_model
  simp [hvc, htr, hk, truthy, hk2]

/-- C10 witness: flag `"TRUE"`, no project id, no location, API key
`"abc"`: the direct backend is selected with the default model name. -/
theorem vertex_incomplete_falls_back_witness :
    (EnvConfig.mk (some "TRUE") none none none (some "abc")).use_vertex =
      some "TRUE" ∧
    truthy (EnvConfig.mk (some "TRUE") none none none
      (some "abc")).project_id = false ∧
    get_gemini_model (EnvConfig.mk (some "TRUE") none none none
      (some "abc")) =
      Except.ok (GeminiModel.apiKey "gemini-1.5-flash" "abc") :=
  ⟨rfl, rfl, vertex_incomplete_falls_back
    (EnvConfig.mk (some "TRUE") none none none (some "abc")) "abc"
    rfl (Or.inl rfl) rfl (by decide)⟩
